import Mathlib

/-!
# Verification of the nrk_download core (src/nrk_download.py)

Shallow embedding of the identifier-resolver and subtitle-converter logic of
`nrk_download.py`. Python strings are modelled as `List Char`; Python
exceptions are modelled with `Except PyErr`; the external collaborators
(the `requests` transport, `BeautifulSoup`, `json.loads`, `urljoin`,
the filesystem and the HLS dumper) are oracles collected in an `Env`
record, so that every function of the script becomes a pure Lean function
of its `Env`.
-/

set_option maxRecDepth 4096

deriving instance DecidableEq for Except

/-- Python exception kinds that the embedded code can raise. -/
inductive PyErr where
  | nameError (n : String)
  | attributeError (n : String)
  | indexError
  | keyError
  | typeError
  | jsonDecodeError
  deriving DecidableEq, Repr

/-- The slice of a `requests` response the script uses: the body text and
whether the status is ok (`Response.__bool__` in `requests` is `self.ok`). -/
structure Response where
  text : List Char
  okStatus : Bool
  deriving DecidableEq, Repr

/-- Outcome of one raw `requests.get` call, before `get_req`'s handlers. -/
inductive RawResult where
  | ok (r : Response)
  | missingSchema
  | requestException (msg : List Char)

/-- An HTML element as queried by the script: only the two data attributes
that `get_program_id_from_html` reads. -/
structure HtmlTag where
  dataGaFromId : Option (List Char)
  dataVideoId : Option (List Char)

/-- The slice of a parsed `BeautifulSoup` document the script queries:
the text of the first script element (`soup.script.get_text()`), the
section with id `program-info`, and the first figure element. -/
structure Soup where
  script : Option (List Char)
  sectionProgramInfo : Option HtmlTag
  figure : Option HtmlTag

/-- JSON values, as produced by `json.loads`. -/
inductive Json where
  | null
  | bool (b : Bool)
  | num (n : Int)
  | str (s : List Char)
  | arr (xs : List Json)
  | obj (fields : List (List Char × Json))

/-- Python truthiness of a JSON value. -/
def Json.truthy : Json → Bool
  | .null => false
  | .bool b => b
  | .num n => n != 0
  | .str s => !s.isEmpty
  | .arr xs => !xs.isEmpty
  | .obj fs => !fs.isEmpty

/-- The external collaborators of the script, as oracles. -/
structure Env where
  rawFetch : List Char → Option (List (List Char × List Char)) → RawResult
  parseHtml : List Char → Soup
  jsonLoads : List Char → Except PyErr Json
  urljoin : List Char → List Char → List Char
  files : List (List Char)
  hlsDump : List Char → List Char → Except PyErr Unit

/-- The fixed header dict `TVAPI_HEADERS`. -/
def tvapiHeaders : List (List Char × List Char) :=
  [("app-version-android".data, "999".data)]

/-- `TVAPI_BASE_URL.format(program_id)`. -/
def TVAPI_BASE_URL (pid : List Char) : List Char :=
  "https://tvapi.nrk.no/v1/programs/".data ++ pid

/-- `MIMIR_BASE_URL.format(media_id)`. -/
def MIMIR_BASE_URL (mid : List Char) : List Char :=
  "https://mimir.nrk.no/plugin/1.0/static?mediaId=".data ++ mid

/-- Embedding of `get_req`. On `MissingSchema` the source runs
`get_req("https://{}".format(url), session)`, but no name `session` is in
scope anywhere in the file, so evaluating the argument raises `NameError`;
on any other `RequestException` the error is printed and `None` returned. -/
def get_req (env : Env) (url : List Char)
    (headers : Option (List (List Char × List Char))) :
    Except PyErr (Option Response) :=
  match env.rawFetch url headers with
  | .ok r => .ok (some r)
  | .missingSchema => .error (.nameError "session")
  | .requestException _ => .ok none

/- ### The three `re.search` patterns of the Identifier Resolver -/

/-- ASCII range test for the regex class `[A-Z]`. -/
def isUpperAZ (c : Char) : Bool := decide ('A' ≤ c ∧ c ≤ 'Z')

/-- Test for the regex class `\d`, modelled as the ASCII digits. -/
def isDigit09 (c : Char) : Bool := decide ('0' ≤ c ∧ c ≤ '9')

/-- Test for the regex class `[\da-f-]`. -/
def isHexHyphen (c : Char) : Bool :=
  isDigit09 c || decide ('a' ≤ c ∧ c ≤ 'f') || decide (c = '-')

/-- Take exactly `n` characters satisfying `p`, as `[A-Z]{4}` / `\d{8}` do. -/
def takeCount (p : Char → Bool) : Nat → List Char → Option (List Char × List Char)
  | 0, l => some ([], l)
  | _ + 1, [] => none
  | n + 1, c :: l =>
    if p c then
      match takeCount p n l with
      | none => none
      | some (t, r) => some (c :: t, r)
    else none

/-- Maximal run of characters satisfying `p`, as a greedy `+`/`*` does. -/
def takeWhileP (p : Char → Bool) : List Char → List Char × List Char
  | [] => ([], [])
  | c :: l =>
    if p c then
      match takeWhileP p l with
      | (t, r) => (c :: t, r)
    else ([], c :: l)

/-- The regex tail `($|/)`: end of string, a `/`, or (Python `$`) the
position just before a final newline. -/
def endSlashNl (rest : List Char) : Bool :=
  match rest with
  | [] => true
  | c :: r => decide (c = '/') || (decide (c = '\n') && decide (r = []))

/-- The regex tail `($|&)` of the media-ID pattern. -/
def endAmpNl (rest : List Char) : Bool :=
  match rest with
  | [] => true
  | c :: r => decide (c = '&') || (decide (c = '\n') && decide (r = []))

/-- Try `[A-Z]{4}\d{8}($|/)` at the current position; the returned token is
capture group 2 of the first pattern in `get_program_id`. -/
def matchDirectHere (l : List Char) : Option (List Char) :=
  match takeCount isUpperAZ 4 l with
  | none => none
  | some (t1, r1) =>
    match takeCount isDigit09 8 r1 with
    | none => none
    | some (t2, r2) => if endSlashNl r2 then some (t1 ++ t2) else none

/-- Offsets after the start: the group `(^|/)` can only match a literal `/`. -/
def searchDirectFrom : List Char → Option (List Char)
  | [] => none
  | c :: l =>
    if c = '/' then
      match matchDirectHere l with
      | some t => some t
      | none => searchDirectFrom l
    else searchDirectFrom l

/-- `re.search("(^|/)([A-Z]{4}\d{8})($|/)", s)`, returning group 2. -/
def searchDirect (s : List Char) : Option (List Char) :=
  match matchDirectHere s with
  | some t => some t
  | none => searchDirectFrom s

/-- Try `PS\*([\da-f-]+)($|/)` at the current position: the literal `PS*`,
then a maximal nonempty run of the class, then the tail. The returned token
is capture group 2, which does not include the `PS*` prefix. -/
def matchStarHere (l : List Char) : Option (List Char) :=
  match l with
  | a :: b :: c :: r =>
    if a = 'P' ∧ b = 'S' ∧ c = '*' then
      match takeWhileP isHexHyphen r with
      | (t, rest) =>
        if t.isEmpty then none
        else if endSlashNl rest then some t else none
    else none
  | _ => none

/-- Offsets after the start for the star-form pattern. -/
def searchStarFrom : List Char → Option (List Char)
  | [] => none
  | c :: l =>
    if c = '/' then
      match matchStarHere l with
      | some t => some t
      | none => searchStarFrom l
    else searchStarFrom l

/-- `re.search("(^|/)PS\*([\da-f-]+)($|/)", s)`, returning group 2. -/
def searchStar (s : List Char) : Option (List Char) :=
  match matchStarHere s with
  | some t => some t
  | none => searchStarFrom s

/-- Try `([0-9]+)($|&)` at the current position. -/
def matchMediaHere (l : List Char) : Option (List Char) :=
  match takeWhileP isDigit09 l with
  | (t, rest) =>
    if t.isEmpty then none
    else if endAmpNl rest then some t else none

/-- The literal alternative `mediaId=` of the media-ID pattern's group 1. -/
def mediaIdEq : List Char := "mediaId=".data

/-- Offsets after the start: group 1 can only match the literal `mediaId=`. -/
def searchMediaFrom : List Char → Option (List Char)
  | [] => none
  | l@(_ :: rest) =>
    if List.isPrefixOf mediaIdEq l then
      match matchMediaHere (l.drop 8) with
      | some t => some t
      | none => searchMediaFrom rest
    else searchMediaFrom rest

/-- `re.search("(^|mediaId=)([0-9]+)($|&)", s)`, returning group 2. -/
def searchMedia (s : List Char) : Option (List Char) :=
  match matchMediaHere s with
  | some t => some t
  | none => searchMediaFrom s

/- ### Python string primitives used by the converter and locator -/

/-- A character at which `str.splitlines` breaks a line. -/
def isLineBreakChar (c : Char) : Bool :=
  decide (c = '\n') || decide (c = '\r') || decide (c = '\x0b') ||
  decide (c = '\x0c') || decide (c = '\x1c') || decide (c = '\x1d') ||
  decide (c = '\x1e') || decide (c = '\u0085') || decide (c = '\u2028') ||
  decide (c = '\u2029')

/-- `str.splitlines()`: breaks at every line-break character, treats `\r\n`
as a single break, and drops a trailing empty line. -/
def pySplitlines : List Char → List (List Char)
  | [] => []
  | '\r' :: '\n' :: rest => [] :: pySplitlines rest
  | c :: rest =>
    if isLineBreakChar c then [] :: pySplitlines rest
    else
      match pySplitlines rest with
      | [] => [[c]]
      | line :: more => (c :: line) :: more

/-- `re.split('\r?\n\r?\n', s)`: the four concrete separator shapes, tried
greedily leftmost-first exactly as the regex engine does. -/
def reSplitBlank : List Char → List (List Char)
  | [] => [[]]
  | '\r' :: '\n' :: '\r' :: '\n' :: r => [] :: reSplitBlank r
  | '\r' :: '\n' :: '\n' :: r => [] :: reSplitBlank r
  | '\n' :: '\r' :: '\n' :: r => [] :: reSplitBlank r
  | '\n' :: '\n' :: r => [] :: reSplitBlank r
  | c :: r =>
    match reSplitBlank r with
    | [] => [[c]]
    | piece :: more => (c :: piece) :: more

/-- `'.'` to `','` rewriting of a single character (`str.replace('.', ',')`). -/
def dotComma (c : Char) : Char := if c = '.' then ',' else c

/-- One iteration of the `nrk_vtt_to_srt` loop: split the cue into lines,
replace `.` by `,` on line index 1 (an `IndexError` if there is no such
line), rejoin with `\n`. -/
def convCue (cue : List Char) : Except PyErr (List Char) :=
  match pySplitlines cue with
  | l0 :: l1 :: rest =>
    .ok (List.intercalate ('\n' :: []) (l0 :: l1.map dotComma :: rest))
  | _ => .error .indexError

/-- The whole `for cue in vtt_cues` loop, stopping at the first raise. -/
def convCues : List (List Char) → Except PyErr (List (List Char))
  | [] => .ok []
  | cue :: rest =>
    match convCue cue with
    | .error e => .error e
    | .ok s =>
      match convCues rest with
      | .error e => .error e
      | .ok ss => .ok (s :: ss)

/-- Embedding of `nrk_vtt_to_srt`. -/
def nrk_vtt_to_srt (vtt : List Char) : Except PyErr (List Char) :=
  match convCues ((reSplitBlank vtt).drop 1) with
  | .error e => .error e
  | .ok srt_cues => .ok (List.intercalate ('\n' :: '\n' :: []) srt_cues)

/- ### Subtitle locator -/

/-- The directive marker scanned for in the main manifest. -/
def subtitlesMarker : List Char := "#EXT-X-MEDIA:TYPE=SUBTITLES".data

/-- The first loop of `get_vtt_file_url`: the first line that starts with
the subtitles marker; `None` models falling off the loop, after which the
unbound local `sub_stream_line` raises. -/
def findSubStreamLine : List (List Char) → Option (List Char)
  | [] => none
  | l :: rest =>
    if List.isPrefixOf subtitlesMarker l then some l
    else findSubStreamLine rest

/-- Try `URI="([^"]+)"` at the current position. -/
def matchURIHere (l : List Char) : Option (List Char) :=
  match l with
  | 'U' :: 'R' :: 'I' :: '=' :: '\"' :: r =>
    match takeWhileP (fun c => decide (c ≠ '\"')) r with
    | (t, rest) =>
      if t.isEmpty then none
      else
        match rest with
        | '\"' :: _ => some t
        | _ => none
  | _ => none

/-- `re.search('URI="([^"]+)"', line)`, returning group 1. -/
def reSearchURI : List Char → Option (List Char)
  | [] => none
  | l@(_ :: rest) =>
    match matchURIHere l with
    | some t => some t
    | none => reSearchURI rest

/-- The second loop of `get_vtt_file_url`: `if not line[0] == '#'` indexes
into each scanned line, so an empty line raises `IndexError`; `ok none`
models falling off the loop with `sub_filename` unbound. -/
def findNonDirective : List (List Char) → Except PyErr (Option (List Char))
  | [] => .ok none
  | line :: rest =>
    match line with
    | [] => .error .indexError
    | c :: _ => if c = '#' then findNonDirective rest else .ok (some line)

/-- Embedding of `get_vtt_file_url`: walk the main manifest to the subtitle
sub-manifest, find its first non-directive line, and resolve it with
`urljoin` against the sub-manifest URL. -/
def get_vtt_file_url (env : Env) (media_url : List Char) :
    Except PyErr (List Char) :=
  match get_req env media_url none with
  | .error e => .error e
  | .ok none => .error (.attributeError "text")
  | .ok (some mreq) =>
    match findSubStreamLine (pySplitlines mreq.text) with
    | none => .error (.nameError "sub_stream_line")
    | some sub_stream_line =>
      match reSearchURI sub_stream_line with
      | none => .error (.attributeError "group")
      | some sub_manifest_url =>
        match get_req env sub_manifest_url none with
        | .error e => .error e
        | .ok none => .error (.attributeError "text")
        | .ok (some sreq) =>
          match findNonDirective (pySplitlines sreq.text) with
          | .error e => .error e
          | .ok none => .error (.nameError "sub_filename")
          | .ok (some sub_filename) =>
            .ok (env.urljoin sub_manifest_url sub_filename)

/- ### JSON access helpers (Python `dict.get`, `in`, subscription) -/

/-- Association lookup with `List Char` keys. -/
def lookupKey : List (List Char × Json) → List Char → Option Json
  | [], _ => none
  | (k, v) :: rest, key => if k = key then some v else lookupKey rest key

/-- Python `x.get(k)`: `None`-defaulting lookup on a dict, `AttributeError`
on anything else. -/
def pyGet (j : Json) (k : List Char) : Except PyErr (Option Json) :=
  match j with
  | .obj fields => .ok (lookupKey fields k)
  | _ => .error (.attributeError "get")

/-- Python `x[k]` for a string key: `KeyError` when missing on a dict,
`TypeError` on anything else. -/
def pySubscript (j : Json) (k : List Char) : Except PyErr Json :=
  match j with
  | .obj fields =>
    match lookupKey fields k with
    | some v => .ok v
    | none => .error .keyError
  | _ => .error .typeError

/-- Python substring test `needle in hay` on strings. -/
def pyInStr (needle : List Char) : List Char → Bool
  | [] => needle.isEmpty
  | l@(_ :: rest) => List.isPrefixOf needle l || pyInStr needle rest

/-- Python `needle in j` for a string needle: key test on dicts, membership
on lists, substring on strings, `TypeError` otherwise. -/
def pyContains (needle : List Char) (j : Json) : Except PyErr Bool :=
  match j with
  | .obj fields => .ok (lookupKey fields needle).isSome
  | .arr xs =>
    .ok (xs.any fun v =>
      match v with
      | .str s => decide (s = needle)
      | _ => false)
  | .str s => .ok (pyInStr needle s)
  | _ => .error .typeError

/-- Truthiness of an optional value (`None` is falsy). -/
def optTruthy : Option Json → Bool
  | none => false
  | some v => v.truthy

/-- `json_info.get('activeMedia', {}).get('psId')` from
`get_program_id_from_media_id`: the first `get` defaults to an empty dict,
so an absent `activeMedia` yields `None`; a non-dict `activeMedia` value
raises `AttributeError` on the second `get`. -/
def psIdOf (j : Json) : Except PyErr (Option Json) :=
  match j with
  | .obj fields =>
    match lookupKey fields "activeMedia".data with
    | none => .ok none
    | some a =>
      match a with
      | .obj g => .ok (lookupKey g "psId".data)
      | _ => .error (.attributeError "get")
  | _ => .error (.attributeError "get")

/- ### The resolver strategies -/

/-- Embedding of `get_program_id_from_media_id`. `if not req` is falsy both
for a `None` result and for a non-ok response; `soup.script` being `None`
makes `.get_text()` raise `AttributeError`. -/
def get_program_id_from_media_id (env : Env) (media_id : List Char) :
    Except PyErr (Option Json) :=
  match get_req env (MIMIR_BASE_URL media_id) none with
  | .error e => .error e
  | .ok none => .ok none
  | .ok (some req) =>
    if req.okStatus = false then .ok none
    else
      match (env.parseHtml req.text).script with
      | none => .error (.attributeError "get_text")
      | some scriptText =>
        match env.jsonLoads scriptText with
        | .error e => .error e
        | .ok json_info => psIdOf json_info

/-- `soup.find('section', id 'program-info') or soup.figure` (an element is
always truthy). -/
def soupIdElement (s : Soup) : Option HtmlTag :=
  match s.sectionProgramInfo with
  | some el => some el
  | none => s.figure

/-- `id_element.get('data-ga-from-id') or id_element.get('data-video-id')`:
Python `or` falls through on a `None` or empty-string first attribute. -/
def attrOr (el : HtmlTag) : Option (List Char) :=
  match el.dataGaFromId with
  | some s => if s.isEmpty then el.dataVideoId else some s
  | none => el.dataVideoId

/-- Embedding of `get_program_id_from_html`. -/
def get_program_id_from_html (env : Env) (url : List Char) :
    Except PyErr (Option Json) :=
  match get_req env url none with
  | .error e => .error e
  | .ok none => .ok none
  | .ok (some req) =>
    if req.okStatus = false then .ok none
    else
      match soupIdElement (env.parseHtml req.text) with
      | none => .ok none
      | some id_element => .ok ((attrOr id_element).map Json.str)

/-- Embedding of `get_program_id`: the two string patterns short-circuit,
then the media-ID indirection, then the HTML scrape. -/
def get_program_id (env : Env) (passed_string : List Char) :
    Except PyErr (Option Json) :=
  match searchDirect passed_string with
  | some t => .ok (some (.str t))
  | none =>
    match searchStar passed_string with
    | some t => .ok (some (.str t))
    | none =>
      match searchMedia passed_string with
      | some mid => get_program_id_from_media_id env mid
      | none => get_program_id_from_html env passed_string

/- ### Download orchestration -/

/-- Python `str()` of a JSON value as interpolated into the TVAPI URL;
the reprs of containers are abbreviated since the result only parameterizes
the fetch oracle. -/
def pyStr : Json → List Char
  | .str s => s
  | .null => "None".data
  | .bool true => "True".data
  | .bool false => "False".data
  | .num n => (toString n).data
  | .arr _ => "<list>".data
  | .obj _ => "<dict>".data

/-- The characters replaced by `_` in `create_filename_base`'s `re.sub`. -/
def badFileChars : List Char := "/\\?%*:|\"<>".data

/-- `re.sub('[/\\\?%\*:|\"<>]', '_', title)`. -/
def sanitizeTitle (s : List Char) : List Char :=
  s.map fun c => if c ∈ badFileChars then '_' else c

/-- The numbered candidate `'{} ({}).ts'.format(basename, i)`. -/
def numName (b : List Char) (i : Nat) : List Char :=
  b ++ " (".data ++ (toString i).data ++ ").ts".data

/-- The `while os.path.isfile` loop of `create_filename_base`, with fuel:
`files.length + 1` probes always reach a name outside `files` because the
numbered names are pairwise distinct. -/
def findFreeName (files : List (List Char)) (b : List Char) :
    Nat → Nat → List Char
  | 0, i => numName b i
  | fuel + 1, i =>
    if numName b i ∈ files then findFreeName files b fuel (i + 1)
    else numName b i

/-- Embedding of `create_filename_base` over the filesystem oracle
`files` (the set of existing file names). -/
def create_filename_base (files : List (List Char)) (title : List Char) :
    List Char :=
  let basename := sanitizeTitle title
  if (basename ++ ".ts".data) ∈ files then
    findFreeName files basename (files.length + 1) 1
  else basename

/-- Embedding of `save_subtitles`: locate the caption asset, fetch it
(`vtt_req.text` raises `AttributeError` when the fetch returned `None`),
convert it; the file write has no further observable effect here. -/
def save_subtitles (env : Env) (media_url filename : List Char) :
    Except PyErr Unit :=
  match get_vtt_file_url env media_url with
  | .error e => .error e
  | .ok sub_url =>
    match get_req env sub_url none with
    | .error e => .error e
    | .ok none => .error (.attributeError "text")
    | .ok (some vtt_req) =>
      match nrk_vtt_to_srt vtt_req.text with
      | .error e => .error e
      | .ok _ =>
        let _ := filename
        .ok ()

/-- Embedding of `save_stream`: compute the title with Python `or`
semantics (`re.sub` then raises `TypeError` on a non-string title),
optionally save subtitles, and hand the manifest URL to the HLS dumper. -/
def save_stream (env : Env) (json_data : Json) : Except PyErr Unit :=
  match pyGet json_data "fullTitle".data with
  | .error e => .error e
  | .ok full =>
    match (if optTruthy full then Except.ok full
           else pyGet json_data "title".data) with
    | .error e => .error e
    | .ok title =>
      match title with
      | some (.str ts) =>
        let filename_base := create_filename_base env.files ts
        match pyGet json_data "hasSubtitles".data with
        | .error e => .error e
        | .ok hasSubs =>
          let subsStep : Except PyErr Unit :=
            if optTruthy hasSubs then
              match pySubscript json_data "mediaUrl".data with
              | .error e => .error e
              | .ok (.str mu) =>
                save_subtitles env mu (filename_base ++ ".srt".data)
              | .ok _ => .error .typeError
            else .ok ()
          match subsStep with
          | .error e => .error e
          | .ok _ =>
            match pySubscript json_data "mediaUrl".data with
            | .error e => .error e
            | .ok (.str mu) => env.hlsDump mu (filename_base ++ ".ts".data)
            | .ok _ => .error .typeError
      | _ => .error .typeError

/-- The three ways one `download` call can finish without raising. -/
inductive DlOutcome where
  | emptyResponse
  | noMediaUrl
  | saved
  deriving DecidableEq, Repr

/-- Embedding of `download`: `req.json()` is called without a null check,
so a failed metadata fetch raises `AttributeError`; an untruthy or
`mediaUrl`-less payload is reported and skipped. -/
def download (env : Env) (program_id : Json) : Except PyErr DlOutcome :=
  match get_req env (TVAPI_BASE_URL (pyStr program_id)) (some tvapiHeaders) with
  | .error e => .error e
  | .ok none => .error (.attributeError "json")
  | .ok (some req) =>
    match env.jsonLoads req.text with
    | .error e => .error e
    | .ok response_data =>
      if response_data.truthy = false then .ok .emptyResponse
      else
        match pyContains "mediaUrl".data response_data with
        | .error e => .error e
        | .ok false => .ok .noMediaUrl
        | .ok true =>
          match save_stream env response_data with
          | .error e => .error e
          | .ok _ => .ok .saved

/-- What one iteration of `main`'s loop reports for one reference. -/
inductive ItemResult where
  | done (o : DlOutcome)
  | couldNotParse
  deriving DecidableEq, Repr

/-- One iteration of the `for program in programs` loop of `main`. -/
def processItem (env : Env) (program : List Char) : Except PyErr ItemResult :=
  match get_program_id env program with
  | .error e => .error e
  | .ok pid =>
    if optTruthy pid then
      match pid with
      | some v =>
        match download env v with
        | .error e => .error e
        | .ok o => .ok (.done o)
      | none => .ok .couldNotParse
    else .ok .couldNotParse

/-- Embedding of `main`: the per-reference results already produced, and
the exception that aborted the loop if one was raised. -/
def mainRun (env : Env) : List (List Char) → List ItemResult × Option PyErr
  | [] => ([], none)
  | program :: rest =>
    match processItem env program with
    | .error e => ([], some e)
    | .ok r =>
      match mainRun env rest with
      | (rs, err) => (r :: rs, err)

/-- The result of one loop iteration when it does not raise. -/
def itemResultOf (env : Env) (program : List Char) : ItemResult :=
  match processItem env program with
  | .ok r => r
  | .error _ => .couldNotParse

/- ### Specification-side predicates for the string patterns -/

/-- The token shape `LLLLdddddddd`: four uppercase letters, eight digits. -/
def directShape (t : List Char) : Prop :=
  ∃ u d, t = u ++ d ∧ u.length = 4 ∧ d.length = 8 ∧
    (∀ c ∈ u, isUpperAZ c = true) ∧ (∀ c ∈ d, isDigit09 c = true)

/-- The token shape after `PS*`: a nonempty run of hex-or-hyphen characters. -/
def starShape (t : List Char) : Prop :=
  t ≠ [] ∧ ∀ c ∈ t, isHexHyphen c = true

/-- The left delimiter of both patterns: string start or a `/`. -/
def leftDelim (pre : List Char) : Prop :=
  pre = [] ∨ ∃ q, pre = q ++ ['/']

/-- The right delimiter as the spec words it: string end or a `/`. -/
def rightDelimSpec (post : List Char) : Prop :=
  post = [] ∨ ∃ q, post = '/' :: q

/-- The claim's hypothesis for the direct pattern: a spec-delimited
occurrence of an `LLLLdddddddd` token. -/
def delimitedDirect (s t : List Char) : Prop :=
  directShape t ∧ ∃ pre post, s = pre ++ t ++ post ∧ leftDelim pre ∧
    rightDelimSpec post

/-- A direct-token occurrence delimited the way the code's regex accepts it
(`$` also matches just before a final newline). -/
def directOccCode (s t : List Char) : Prop :=
  directShape t ∧ ∃ pre post, s = pre ++ t ++ post ∧ leftDelim pre ∧
    endSlashNl post = true

/-- The claim's hypothesis for the star pattern: a spec-delimited
occurrence of `PS*` followed by the token. -/
def delimitedStar (s t : List Char) : Prop :=
  starShape t ∧ ∃ pre post, s = pre ++ ('P' :: 'S' :: '*' :: t) ++ post ∧
    leftDelim pre ∧ rightDelimSpec post

/-- A star-token occurrence delimited the way the code's regex accepts it. -/
def starOccCode (s t : List Char) : Prop :=
  starShape t ∧ ∃ pre post, s = pre ++ ('P' :: 'S' :: '*' :: t) ++ post ∧
    leftDelim pre ∧ endSlashNl post = true

/-- No string-level pattern of `get_program_id` matches. -/
def noPattern (s : List Char) : Bool :=
  (searchDirect s).isNone && (searchStar s).isNone && (searchMedia s).isNone

/- ### Lemmas about the pattern matchers -/

/-- Head of the remainder after a maximal run fails the class test. -/
def headFails (p : Char → Bool) : List Char → Bool
  | [] => true
  | c :: _ => !p c

theorem takeCount_sound {p : Char → Bool} :
    ∀ {n : Nat} {l t r : List Char}, takeCount p n l = some (t, r) →
      l = t ++ r ∧ t.length = n ∧ ∀ c ∈ t, p c = true := by
  intro n
  induction n with
  | zero =>
    intro l t r h
    simp only [takeCount, Option.some.injEq, Prod.mk.injEq] at h
    obtain ⟨h1, h2⟩ := h
    subst h1; subst h2
    simp
  | succ n ih =>
    intro l t r h
    cases l with
    | nil => simp [takeCount] at h
    | cons c l' =>
      simp only [takeCount] at h
      by_cases hp : p c
      · rw [if_pos hp] at h
        cases hc : takeCount p n l' with
        | none => rw [hc] at h; simp at h
        | some tr =>
          obtain ⟨t', r'⟩ := tr
          rw [hc] at h
          simp only [Option.some.injEq, Prod.mk.injEq] at h
          obtain ⟨h1, h2⟩ := h
          subst h1; subst h2
          obtain ⟨he, hn, hall⟩ := ih hc
          subst he
          refine ⟨rfl, by simp [hn], ?_⟩
          intro x hx
          rcases List.mem_cons.mp hx with h | h
          · subst h; exact hp
          · exact hall x h
      · rw [if_neg hp] at h; simp at h

theorem takeCount_complete {p : Char → Bool} :
    ∀ {t : List Char} (r : List Char), (∀ c ∈ t, p c = true) →
      takeCount p t.length (t ++ r) = some (t, r) := by
  intro t
  induction t with
  | nil => intro r _; simp [takeCount]
  | cons c t' ih =>
    intro r hall
    have hc : p c = true := hall c (List.mem_cons_self c t')
    have ht' : ∀ x ∈ t', p x = true := fun x hx => hall x (List.mem_cons_of_mem c hx)
    show takeCount p (t'.length + 1) (c :: (t' ++ r)) = some (c :: t', r)
    simp only [takeCount, if_pos hc, ih r ht']

theorem takeWhileP_sound {p : Char → Bool} :
    ∀ {l t r : List Char}, takeWhileP p l = (t, r) →
      l = t ++ r ∧ (∀ c ∈ t, p c = true) ∧ headFails p r = true := by
  intro l
  induction l with
  | nil =>
    intro t r h
    simp only [takeWhileP, Prod.mk.injEq] at h
    obtain ⟨h1, h2⟩ := h
    subst h1; subst h2
    simp [headFails]
  | cons c l' ih =>
    intro t r h
    simp only [takeWhileP] at h
    by_cases hp : p c
    · rw [if_pos hp] at h
      cases hw : takeWhileP p l' with
      | mk t' r' =>
        rw [hw] at h
        simp only [Prod.mk.injEq] at h
        obtain ⟨h1, h2⟩ := h
        subst h1; subst h2
        obtain ⟨he, hall, hhf⟩ := ih hw
        subst he
        refine ⟨rfl, ?_, hhf⟩
        intro x hx
        rcases List.mem_cons.mp hx with h | h
        · subst h; exact hp
        · exact hall x h
    · rw [if_neg hp] at h
      simp only [Prod.mk.injEq] at h
      obtain ⟨h1, h2⟩ := h
      subst h1; subst h2
      simp [headFails, hp]

theorem takeWhileP_complete {p : Char → Bool} :
    ∀ {t post : List Char}, (∀ c ∈ t, p c = true) → headFails p post = true →
      takeWhileP p (t ++ post) = (t, post) := by
  intro t
  induction t with
  | nil =>
    intro post _ hpost
    cases post with
    | nil => rfl
    | cons c r =>
      simp only [headFails, Bool.not_eq_true'] at hpost
      simp [takeWhileP, hpost]
  | cons c t' ih =>
    intro post hall hpost
    have hc : p c = true := hall c (List.mem_cons_self c t')
    have ht' : ∀ x ∈ t', p x = true := fun x hx => hall x (List.mem_cons_of_mem c hx)
    simp [takeWhileP, hc, ih ht' hpost]

theorem endSlashNl_of_spec {post : List Char} (h : rightDelimSpec post) :
    endSlashNl post = true := by
  rcases h with h | ⟨q, h⟩ <;> subst h <;> simp [endSlashNl]

theorem endSlashNl_headFails_hex {post : List Char} (h : endSlashNl post = true) :
    headFails isHexHyphen post = true := by
  cases post with
  | nil => rfl
  | cons c r =>
    simp only [endSlashNl, Bool.or_eq_true, Bool.and_eq_true, decide_eq_true_eq] at h
    rcases h with h | ⟨h, _⟩
    · subst h
      show (!(isHexHyphen '/')) = true
      decide
    · subst h
      show (!(isHexHyphen '\n')) = true
      decide

theorem matchDirectHere_sound {l t : List Char} (h : matchDirectHere l = some t) :
    directShape t ∧ ∃ rest, l = t ++ rest ∧ endSlashNl rest = true := by
  cases h1 : takeCount isUpperAZ 4 l with
  | none => simp [matchDirectHere, h1] at h
  | some p1 =>
    obtain ⟨t1, r1⟩ := p1
    cases h2 : takeCount isDigit09 8 r1 with
    | none => simp [matchDirectHere, h1, h2] at h
    | some p2 =>
      obtain ⟨t2, r2⟩ := p2
      by_cases he : endSlashNl r2 = true
      · have ht : t1 ++ t2 = t := by
          simp [matchDirectHere, h1, h2, he] at h
          exact h
        subst ht
        obtain ⟨hl1, hn1, ha1⟩ := takeCount_sound h1
        obtain ⟨hl2, hn2, ha2⟩ := takeCount_sound h2
        subst hl1; subst hl2
        exact ⟨⟨t1, t2, rfl, hn1, hn2, ha1, ha2⟩, r2, by simp, he⟩
      · simp [matchDirectHere, h1, h2, he] at h

theorem matchDirectHere_complete {t post : List Char} (hs : directShape t)
    (he : endSlashNl post = true) : matchDirectHere (t ++ post) = some t := by
  obtain ⟨u, d, rfl, hu, hd, hau, had⟩ := hs
  have h1 : takeCount isUpperAZ 4 (u ++ (d ++ post)) = some (u, d ++ post) := by
    rw [← hu]
    exact takeCount_complete (d ++ post) hau
  have h2 : takeCount isDigit09 8 (d ++ post) = some (d, post) := by
    rw [← hd]
    exact takeCount_complete post had
  rw [List.append_assoc]
  simp [matchDirectHere, h1, h2, he]

theorem searchDirectFrom_sound {l t : List Char} (h : searchDirectFrom l = some t) :
    directShape t ∧ ∃ pre rest, l = pre ++ '/' :: (t ++ rest) ∧
      endSlashNl rest = true := by
  induction l with
  | nil => simp [searchDirectFrom] at h
  | cons c l' ih =>
    simp only [searchDirectFrom] at h
    by_cases hc : c = '/'
    · rw [if_pos hc] at h
      cases hm : matchDirectHere l' with
      | some t' =>
        rw [hm] at h
        simp only [Option.some.injEq] at h
        subst h
        obtain ⟨hshape, rest, hleq, hend⟩ := matchDirectHere_sound hm
        exact ⟨hshape, [], rest, by simp [hc, hleq], hend⟩
      | none =>
        rw [hm] at h
        obtain ⟨hshape, pre, rest, hleq, hend⟩ := ih h
        exact ⟨hshape, c :: pre, rest, by simp [hleq], hend⟩
    · rw [if_neg hc] at h
      obtain ⟨hshape, pre, rest, hleq, hend⟩ := ih h
      exact ⟨hshape, c :: pre, rest, by simp [hleq], hend⟩

theorem searchDirect_sound {s t : List Char} (h : searchDirect s = some t) :
    directShape t ∧ ∃ pre rest, s = pre ++ t ++ rest ∧ leftDelim pre ∧
      endSlashNl rest = true := by
  unfold searchDirect at h
  cases hm : matchDirectHere s with
  | some t' =>
    rw [hm] at h
    simp only [Option.some.injEq] at h
    subst h
    obtain ⟨hshape, rest, hleq, hend⟩ := matchDirectHere_sound hm
    exact ⟨hshape, [], rest, by simpa using hleq, Or.inl rfl, hend⟩
  | none =>
    rw [hm] at h
    obtain ⟨hshape, pre, rest, hleq, hend⟩ := searchDirectFrom_sound h
    refine ⟨hshape, pre ++ ['/'], rest, ?_, Or.inr ⟨pre, rfl⟩, hend⟩
    rw [hleq]
    simp

theorem searchDirectFrom_isSome :
    ∀ (pre : List Char) {t post l : List Char}, directShape t →
      endSlashNl post = true → l = pre ++ '/' :: (t ++ post) →
      (searchDirectFrom l).isSome = true := by
  intro pre
  induction pre with
  | nil =>
    intro t post l hs he hl
    subst hl
    show (searchDirectFrom ('/' :: (t ++ post))).isSome = true
    simp [searchDirectFrom, matchDirectHere_complete hs he]
  | cons c pre' ih =>
    intro t post l hs he hl
    subst hl
    show (searchDirectFrom (c :: (pre' ++ '/' :: (t ++ post)))).isSome = true
    simp only [searchDirectFrom]
    by_cases hc : c = '/'
    · rw [if_pos hc]
      cases hm : matchDirectHere (pre' ++ '/' :: (t ++ post)) with
      | some t' => rfl
      | none => exact ih hs he rfl
    · rw [if_neg hc]
      exact ih hs he rfl

theorem searchDirect_isSome {s t : List Char} (h : delimitedDirect s t) :
    (searchDirect s).isSome = true := by
  obtain ⟨hshape, pre, post, hseq, hpre, hpost⟩ := h
  have hend : endSlashNl post = true := endSlashNl_of_spec hpost
  rcases hpre with hpre | ⟨q, hpre⟩
  · subst hpre
    simp only [List.nil_append] at hseq
    subst hseq
    unfold searchDirect
    simp [matchDirectHere_complete hshape hend]
  · subst hpre
    have hseq' : s = q ++ '/' :: (t ++ post) := by
      rw [hseq]; simp
    unfold searchDirect
    cases hm : matchDirectHere s with
    | some t' => rfl
    | none => exact searchDirectFrom_isSome q hshape hend hseq'

theorem matchStarHere_sound {l t : List Char} (h : matchStarHere l = some t) :
    starShape t ∧ ∃ rest, l = 'P' :: 'S' :: '*' :: (t ++ rest) ∧
      endSlashNl rest = true := by
  match l with
  | [] => simp [matchStarHere] at h
  | [a] => simp [matchStarHere] at h
  | [a, b] => simp [matchStarHere] at h
  | a :: b :: c :: r =>
    simp only [matchStarHere] at h
    by_cases habc : a = 'P' ∧ b = 'S' ∧ c = '*'
    · rw [if_pos habc] at h
      obtain ⟨ha, hb, hc⟩ := habc
      subst ha; subst hb; subst hc
      rcases hw : takeWhileP isHexHyphen r with ⟨tk, rest⟩
      simp only [hw] at h
      by_cases hemp : tk.isEmpty
      · rw [if_pos hemp] at h; simp at h
      · rw [if_neg hemp] at h
        by_cases he : endSlashNl rest = true
        · rw [if_pos he] at h
          simp only [Option.some.injEq] at h
          subst h
          obtain ⟨hre, hall, _⟩ := takeWhileP_sound hw
          subst hre
          refine ⟨⟨?_, hall⟩, rest, rfl, he⟩
          intro hnil
          rw [hnil] at hemp
          exact hemp rfl
        · rw [if_neg he] at h; simp at h
    · rw [if_neg habc] at h; simp at h

theorem matchStarHere_complete {t post : List Char} (hs : starShape t)
    (he : endSlashNl post = true) :
    matchStarHere ('P' :: 'S' :: '*' :: (t ++ post)) = some t := by
  obtain ⟨tne, tall⟩ := hs
  have hw := takeWhileP_complete tall (endSlashNl_headFails_hex he)
  cases t with
  | nil => exact absurd rfl tne
  | cons x xs =>
    rw [List.cons_append] at hw
    simp [matchStarHere, hw, he]

theorem searchStarFrom_sound {l t : List Char} (h : searchStarFrom l = some t) :
    starShape t ∧ ∃ pre rest, l = pre ++ '/' :: ('P' :: 'S' :: '*' :: (t ++ rest)) ∧
      endSlashNl rest = true := by
  induction l with
  | nil => simp [searchStarFrom] at h
  | cons c l' ih =>
    simp only [searchStarFrom] at h
    by_cases hc : c = '/'
    · rw [if_pos hc] at h
      cases hm : matchStarHere l' with
      | some t' =>
        rw [hm] at h
        simp only [Option.some.injEq] at h
        subst h
        obtain ⟨hshape, rest, hleq, hend⟩ := matchStarHere_sound hm
        exact ⟨hshape, [], rest, by simp [hc, hleq], hend⟩
      | none =>
        rw [hm] at h
        obtain ⟨hshape, pre, rest, hleq, hend⟩ := ih h
        exact ⟨hshape, c :: pre, rest, by simp [hleq], hend⟩
    · rw [if_neg hc] at h
      obtain ⟨hshape, pre, rest, hleq, hend⟩ := ih h
      exact ⟨hshape, c :: pre, rest, by simp [hleq], hend⟩

theorem searchStar_sound {s t : List Char} (h : searchStar s = some t) :
    starShape t ∧ ∃ pre rest, s = pre ++ ('P' :: 'S' :: '*' :: t) ++ rest ∧
      leftDelim pre ∧ endSlashNl rest = true := by
  unfold searchStar at h
  cases hm : matchStarHere s with
  | some t' =>
    rw [hm] at h
    simp only [Option.some.injEq] at h
    subst h
    obtain ⟨hshape, rest, hleq, hend⟩ := matchStarHere_sound hm
    exact ⟨hshape, [], rest, by simp [hleq], Or.inl rfl, hend⟩
  | none =>
    rw [hm] at h
    obtain ⟨hshape, pre, rest, hleq, hend⟩ := searchStarFrom_sound h
    refine ⟨hshape, pre ++ ['/'], rest, ?_, Or.inr ⟨pre, rfl⟩, hend⟩
    rw [hleq]
    simp

theorem searchStarFrom_isSome :
    ∀ (pre : List Char) {t post l : List Char}, starShape t →
      endSlashNl post = true →
      l = pre ++ '/' :: ('P' :: 'S' :: '*' :: (t ++ post)) →
      (searchStarFrom l).isSome = true := by
  intro pre
  induction pre with
  | nil =>
    intro t post l hs he hl
    subst hl
    show (searchStarFrom ('/' :: ('P' :: 'S' :: '*' :: (t ++ post)))).isSome = true
    simp [searchStarFrom, matchStarHere_complete hs he]
  | cons c pre' ih =>
    intro t post l hs he hl
    subst hl
    show (searchStarFrom
      (c :: (pre' ++ '/' :: ('P' :: 'S' :: '*' :: (t ++ post))))).isSome = true
    simp only [searchStarFrom]
    by_cases hc : c = '/'
    · rw [if_pos hc]
      cases hm : matchStarHere (pre' ++ '/' :: ('P' :: 'S' :: '*' :: (t ++ post))) with
      | some t' => rfl
      | none => exact ih hs he rfl
    · rw [if_neg hc]
      exact ih hs he rfl

theorem searchStar_isSome {s t : List Char} (h : delimitedStar s t) :
    (searchStar s).isSome = true := by
  obtain ⟨hshape, pre, post, hseq, hpre, hpost⟩ := h
  have hend : endSlashNl post = true := endSlashNl_of_spec hpost
  rcases hpre with hpre | ⟨q, hpre⟩
  · subst hpre
    simp only [List.nil_append, List.cons_append] at hseq
    subst hseq
    unfold searchStar
    simp [matchStarHere_complete hshape hend]
  · subst hpre
    have hseq' : s = q ++ '/' :: ('P' :: 'S' :: '*' :: (t ++ post)) := by
      rw [hseq]; simp
    unfold searchStar
    cases hm : matchStarHere s with
    | some t' => rfl
    | none => exact searchStarFrom_isSome q hshape hend hseq'

/- ### Concrete oracle environments for witnesses and counterexamples -/

/-- A parse result with no script, no program-info section, no figure. -/
def soupEmpty : Soup := ⟨none, none, none⟩

/-- Every fetch fails with a connection error. -/
def env0 : Env where
  rawFetch := fun _ _ => .requestException "connection error".data
  parseHtml := fun _ => soupEmpty
  jsonLoads := fun _ => .error .jsonDecodeError
  urljoin := fun base rel => base ++ rel
  files := []
  hlsDump := fun _ _ => .ok ()

/-- Every fetch raises `MissingSchema` (a URL without a scheme). -/
def envMissingSchema : Env :=
  { env0 with rawFetch := fun _ _ => .missingSchema }

/-- Every fetch succeeds with a page that parses to an empty document. -/
def envScriptless : Env :=
  { env0 with rawFetch := fun _ _ => .ok ⟨"<html></html>".data, true⟩ }

/- ### Claim theorems: the string patterns (C1, C4, C10) and the Fetcher (C2) -/

/-- C4: a reference containing a spec-delimited `LLLLdddddddd` token makes
`get_program_id` return, for every environment (hence with no fetch), a
twelve-character token of that shape occurring delimited in the reference;
when the occurrence is unambiguous it is exactly the given token. -/
theorem c4_direct_match (s t : List Char) (h : delimitedDirect s t) :
    ∃ r, (∀ env, get_program_id env s = .ok (some (.str r)))
      ∧ directShape r ∧ r.length = 12 ∧ directOccCode s r
      ∧ ((∀ u, directOccCode s u → u = t) → r = t) := by
  have hs := searchDirect_isSome h
  rcases hr : searchDirect s with _ | r
  · rw [hr] at hs; simp at hs
  · obtain ⟨hshape, pre, rest, hseq, hpre, hend⟩ := searchDirect_sound hr
    refine ⟨r, ?_, hshape, ?_, ⟨hshape, pre, rest, hseq, hpre, hend⟩, ?_⟩
    · intro env
      simp [get_program_id, hr]
    · obtain ⟨u, d, huv, hu, hd, _, _⟩ := hshape
      subst huv
      simp [hu, hd]
    · intro huniq
      exact huniq r ⟨hshape, pre, rest, hseq, hpre, hend⟩

/-- The reference and token of the C4 witness. -/
def sW4 : List Char := "https://tv.nrk.no/serie/broedrene-dal/MSUI12345678/sesong-1".data

/-- The token of the C4 witness. -/
def tW4 : List Char := "MSUI12345678".data

/-- Witness for C4 on a URL with surrounding path segments. -/
theorem c4_direct_match_witness :
    delimitedDirect sW4 tW4 ∧
    ∃ r, (∀ env, get_program_id env sW4 = .ok (some (.str r)))
      ∧ directShape r ∧ r.length = 12 ∧ directOccCode sW4 r
      ∧ ((∀ u, directOccCode sW4 u → u = tW4) → r = tW4) := by
  have hshape : directShape tW4 :=
    ⟨"MSUI".data, "12345678".data, by decide, by decide, by decide,
      by decide, by decide⟩
  have hW : delimitedDirect sW4 tW4 :=
    ⟨hshape, "https://tv.nrk.no/serie/broedrene-dal/".data, "/sesong-1".data,
      by decide, Or.inr ⟨"https://tv.nrk.no/serie/broedrene-dal".data, by decide⟩,
      Or.inr ⟨"sesong-1".data, by decide⟩⟩
  exact ⟨hW, c4_direct_match sW4 tW4 hW⟩

/-- C1 counterexample: on `PS*12ab-34` the resolver returns the token
without the `PS*` prefix (capture group 2), not `PS*12ab-34` unchanged. -/
theorem c1_counterexample :
    get_program_id env0 "PS*12ab-34".data = .ok (some (.str "12ab-34".data))
    ∧ "12ab-34".data ≠ "PS*12ab-34".data :=
  ⟨rfl, by decide⟩

/-- C1 as amended: when the direct pattern fails and the reference contains
a spec-delimited `PS*` token, the resolver returns (for every environment)
the hex-or-hyphen token occurring after a delimited `PS*`, with the `PS*`
prefix stripped; unambiguous occurrences return exactly the given token. -/
theorem c1_amended_star (s t : List Char) (hd : searchDirect s = none)
    (h : delimitedStar s t) :
    ∃ r, (∀ env, get_program_id env s = .ok (some (.str r)))
      ∧ starShape r ∧ starOccCode s r
      ∧ ((∀ u, starOccCode s u → u = t) → r = t) := by
  have hs := searchStar_isSome h
  rcases hr : searchStar s with _ | r
  · rw [hr] at hs; simp at hs
  · obtain ⟨hshape, pre, rest, hseq, hpre, hend⟩ := searchStar_sound hr
    refine ⟨r, ?_, hshape, ⟨hshape, pre, rest, hseq, hpre, hend⟩, ?_⟩
    · intro env
      simp [get_program_id, hd, hr]
    · intro huniq
      exact huniq r ⟨hshape, pre, rest, hseq, hpre, hend⟩

/-- The reference of the C1 witness. -/
def sW1 : List Char := "nrk.no/video/PS*8d2f-3a".data

/-- The token of the C1 witness. -/
def tW1 : List Char := "8d2f-3a".data

/-- Witness for the amended C1. -/
theorem c1_amended_star_witness :
    searchDirect sW1 = none ∧ delimitedStar sW1 tW1 ∧
    ∃ r, (∀ env, get_program_id env sW1 = .ok (some (.str r)))
      ∧ starShape r ∧ starOccCode sW1 r
      ∧ ((∀ u, starOccCode sW1 u → u = tW1) → r = tW1) := by
  have hW : delimitedStar sW1 tW1 :=
    ⟨⟨by decide, by decide⟩, "nrk.no/video/".data, [],
      by decide, Or.inr ⟨"nrk.no/video".data, by decide⟩, Or.inl rfl⟩
  exact ⟨by decide, hW, c1_amended_star sW1 tW1 (by decide) hW⟩

/-- C10: a reference matched by the direct or star pattern is resolved
without consulting any oracle: some token is returned uniformly over all
environments, so two runs against different fetchers agree. -/
theorem c10_pattern_no_fetch (s : List Char)
    (h : (searchDirect s).isSome = true ∨ (searchStar s).isSome = true) :
    (∃ v, ∀ env, get_program_id env s = .ok (some (.str v)))
    ∧ ∀ envA envB, get_program_id envA s = get_program_id envB s := by
  rcases hd : searchDirect s with _ | r
  · rcases hst : searchStar s with _ | r
    · rw [hd, hst] at h
      simp at h
    · exact ⟨⟨r, fun env => by simp [get_program_id, hd, hst]⟩,
        fun a b => by simp [get_program_id, hd, hst]⟩
  · exact ⟨⟨r, fun env => by simp [get_program_id, hd]⟩,
      fun a b => by simp [get_program_id, hd]⟩

/-- Witness for C10: a star-form reference resolved identically under a
failing fetcher and a succeeding one. -/
theorem c10_pattern_no_fetch_witness :
    ((searchDirect "PS*ab-12".data).isSome = true
      ∨ (searchStar "PS*ab-12".data).isSome = true)
    ∧ get_program_id env0 "PS*ab-12".data
      = get_program_id envScriptless "PS*ab-12".data :=
  ⟨Or.inr (by decide),
    (c10_pattern_no_fetch "PS*ab-12".data (Or.inr (by decide))).2 env0 envScriptless⟩

/-- C2 (the code bug): on a scheme-less URL the transport raises
`MissingSchema` and `get_req` raises `NameError` on the undefined name
`session` instead of retrying with `https://`; any other transport failure
is mapped to a null result as the claim says. -/
theorem c2_fetch_schema_bug :
    get_req envMissingSchema "tv.nrk.no/program/DVFJ64001010".data none
      = .error (.nameError "session")
    ∧ get_req env0 "https://tv.nrk.no/mr".data none = .ok none :=
  ⟨rfl, rfl⟩

/- ### Claim theorems: the subtitle converter (C5, C9) -/

theorem convCue_ok_iff (cue : List Char) :
    (∃ s, convCue cue = .ok s) ↔ 2 ≤ (pySplitlines cue).length := by
  unfold convCue
  cases hps : pySplitlines cue with
  | nil => simp
  | cons l0 ls =>
    cases ls with
    | nil => simp
    | cons l1 r =>
      simp only [List.length_cons]
      constructor
      · intro _
        omega
      · intro _
        exact ⟨_, rfl⟩

theorem convCues_map (bs : List (List Char))
    (h : ∀ cue ∈ bs, 2 ≤ (pySplitlines cue).length) :
    convCues bs = .ok (bs.map fun cue =>
      List.intercalate ('\n' :: [])
        ((pySplitlines cue).set 1 (((pySplitlines cue).getD 1 []).map dotComma))) := by
  induction bs with
  | nil => rfl
  | cons cue rest ih =>
    have hc := h cue (List.mem_cons_self cue rest)
    have hrest : ∀ q ∈ rest, 2 ≤ (pySplitlines q).length :=
      fun q hq => h q (List.mem_cons_of_mem cue hq)
    cases hl : pySplitlines cue with
    | nil => rw [hl] at hc; simp at hc
    | cons l0 ls =>
      cases ls with
      | nil => rw [hl] at hc; simp at hc
      | cons l1 rest2 =>
        simp [convCues, convCue, hl, ih hrest, List.set]

theorem convCues_ok_iff (bs : List (List Char)) :
    (∃ cs, convCues bs = .ok cs) ↔ ∀ cue ∈ bs, 2 ≤ (pySplitlines cue).length := by
  induction bs with
  | nil => simp [convCues]
  | cons cue rest ih =>
    simp only [convCues]
    constructor
    · rintro ⟨cs, hcs⟩
      cases hc : convCue cue with
      | error e => rw [hc] at hcs; simp at hcs
      | ok s =>
        rw [hc] at hcs
        cases hcr : convCues rest with
        | error e => rw [hcr] at hcs; simp at hcs
        | ok ss =>
          intro q hq
          rcases List.mem_cons.mp hq with rfl | hq
          · exact (convCue_ok_iff q).mp ⟨s, hc⟩
          · exact (ih.mp ⟨ss, hcr⟩) q hq
    · intro h
      obtain ⟨s, hs⟩ := (convCue_ok_iff cue).mpr (h cue (List.mem_cons_self cue rest))
      obtain ⟨ss, hss⟩ := ih.mpr fun q hq => h q (List.mem_cons_of_mem cue hq)
      exact ⟨s :: ss, by rw [hs, hss]⟩

/-- C5: on input whose cue blocks all have at least two lines, the
converter drops the first blank-line-separated block, rewrites exactly line
index 1 of every remaining block by turning `.` into `,`, leaves all other
lines unchanged, and joins the blocks with one blank line. -/
theorem c5_converter (vtt : List Char)
    (h : ∀ cue ∈ (reSplitBlank vtt).drop 1, 2 ≤ (pySplitlines cue).length) :
    nrk_vtt_to_srt vtt = .ok (List.intercalate ('\n' :: '\n' :: [])
      (((reSplitBlank vtt).drop 1).map fun cue =>
        List.intercalate ('\n' :: [])
          ((pySplitlines cue).set 1 (((pySplitlines cue).getD 1 []).map dotComma)))) := by
  unfold nrk_vtt_to_srt
  rw [convCues_map _ h]

/-- The conversion example input from the spec. -/
def vttExample : List Char :=
  "WEBVTT\n\n1\n00:00:01.000 --> 00:00:02.000\nHello".data

/-- The expected conversion output from the spec. -/
def srtExample : List Char :=
  "1\n00:00:01,000 --> 00:00:02,000\nHello".data

/-- Witness for C5: the spec's example converts exactly as claimed. -/
theorem c5_converter_witness :
    (∀ cue ∈ (reSplitBlank vttExample).drop 1, 2 ≤ (pySplitlines cue).length)
    ∧ nrk_vtt_to_srt vttExample = .ok srtExample := by
  refine ⟨by decide, ?_⟩
  rw [c5_converter vttExample (by decide)]
  decide

/-- C9: the converter returns normally exactly when every block after the
first splits into at least two lines; a trailing blank-line pair (empty
final block) or a single-line cue block makes it raise `IndexError`. -/
theorem c9_converter_partiality :
    (∀ vtt : List Char, (∃ s, nrk_vtt_to_srt vtt = .ok s)
      ↔ ∀ cue ∈ (reSplitBlank vtt).drop 1, 2 ≤ (pySplitlines cue).length)
    ∧ nrk_vtt_to_srt "WEBVTT\n\n1\n00:00:01.000 --> 00:00:02.000\nHello\n\n".data
      = .error .indexError
    ∧ nrk_vtt_to_srt "WEBVTT\n\nHello".data = .error .indexError := by
  refine ⟨?_, by decide, by decide⟩
  intro vtt
  unfold nrk_vtt_to_srt
  constructor
  · rintro ⟨s, hs⟩
    cases hcc : convCues ((reSplitBlank vtt).drop 1) with
    | error e => rw [hcc] at hs; simp at hs
    | ok cs => exact (convCues_ok_iff _).mp ⟨cs, hcc⟩
  · intro h
    obtain ⟨cs, hcs⟩ := (convCues_ok_iff _).mpr h
    rw [hcs]
    exact ⟨_, rfl⟩

/- ### Claim theorems: the subtitle locator (C6) -/

theorem findNonDirective_found (pre : List (List Char)) (fname : List Char)
    (rest : List (List Char)) (hpre : ∀ l ∈ pre, ∃ tl, l = '#' :: tl)
    (hf : ∃ c tl, fname = c :: tl ∧ c ≠ '#') :
    findNonDirective (pre ++ fname :: rest) = .ok (some fname) := by
  induction pre with
  | nil =>
    obtain ⟨c, tl, rfl, hc⟩ := hf
    simp [findNonDirective, hc]
  | cons l pre' ih =>
    obtain ⟨tl, rfl⟩ := hpre l (List.mem_cons_self l pre')
    simpa [findNonDirective] using
      ih fun q hq => hpre q (List.mem_cons_of_mem _ hq)

/-- C6 as amended: when the directive chain reaches the sub-manifest and
its lines are directives (each starting `#`) up to a first nonempty
non-directive line, that line is selected and resolved with `urljoin`
against the sub-manifest's own URL. (An empty line reached during the
scan instead raises `IndexError`; see the counterexample.) -/
theorem c6_amended (env : Env) (media_url : List Char) (mreq sreq : Response)
    (line u fname : List Char) (pre rest : List (List Char))
    (h1 : env.rawFetch media_url none = .ok mreq)
    (h2 : findSubStreamLine (pySplitlines mreq.text) = some line)
    (h3 : reSearchURI line = some u)
    (h4 : env.rawFetch u none = .ok sreq)
    (h5 : pySplitlines sreq.text = pre ++ fname :: rest)
    (h6 : ∀ l ∈ pre, ∃ tl, l = '#' :: tl)
    (h7 : ∃ c tl, fname = c :: tl ∧ c ≠ '#') :
    get_vtt_file_url env media_url = .ok (env.urljoin u fname) := by
  unfold get_vtt_file_url
  simp [get_req, h1, h2, h3, h4, h5,
    findNonDirective_found pre fname rest h6 h7]

/-- The top-level manifest of the C6 environments. -/
def mainManifestW : List Char :=
  "#EXTM3U\n#EXT-X-MEDIA:TYPE=SUBTITLES,URI=\"https://host/path/sub.m3u8\"\nvideo.m3u8".data

/-- The sub-manifest of the C6 witness: directives then a locator. -/
def subManifestW : List Char := "#EXTM3U\n#EXTINF:6.0,\nseg.vtt".data

/-- The sub-manifest of the C6 counterexample: an empty line comes first. -/
def subManifestX : List Char := "#EXTM3U\n\nseg.vtt".data

/-- Environment serving the witness manifests. -/
def envC6 : Env :=
  { env0 with rawFetch := fun url _ =>
      if url = "https://host/path/main.m3u8".data then .ok ⟨mainManifestW, true⟩
      else if url = "https://host/path/sub.m3u8".data then .ok ⟨subManifestW, true⟩
      else .requestException "connection error".data }

/-- Environment serving the counterexample manifests. -/
def envC6X : Env :=
  { env0 with rawFetch := fun url _ =>
      if url = "https://host/path/main.m3u8".data then .ok ⟨mainManifestW, true⟩
      else if url = "https://host/path/sub.m3u8".data then .ok ⟨subManifestX, true⟩
      else .requestException "connection error".data }

/-- Witness for the amended C6: the bare locator `seg.vtt` is selected and
resolved against the sub-manifest URL. -/
theorem c6_amended_witness :
    get_vtt_file_url envC6 "https://host/path/main.m3u8".data
      = .ok (envC6.urljoin "https://host/path/sub.m3u8".data "seg.vtt".data) := by
  refine c6_amended envC6 "https://host/path/main.m3u8".data
    ⟨mainManifestW, true⟩ ⟨subManifestW, true⟩
    "#EXT-X-MEDIA:TYPE=SUBTITLES,URI=\"https://host/path/sub.m3u8\"".data
    "https://host/path/sub.m3u8".data "seg.vtt".data
    ["#EXTM3U".data, "#EXTINF:6.0,".data] [] rfl (by decide) (by decide) rfl
    (by decide) ?_ ⟨'s', "eg.vtt".data, by decide, by decide⟩
  intro l hl
  rcases List.mem_cons.mp hl with rfl | hl
  · exact ⟨"EXTM3U".data, by decide⟩
  · rcases List.mem_cons.mp hl with rfl | hl
    · exact ⟨"EXTINF:6.0,".data, by decide⟩
    · exact absurd hl (List.not_mem_nil l)

/-- C6 counterexample: the sub-manifest has a line that does not start
with `#` (the empty line), but instead of selecting the first such line
the locator raises `IndexError` on it. -/
theorem c6_counterexample :
    (∃ l, l ∈ pySplitlines subManifestX ∧ l.head? ≠ some '#')
    ∧ get_vtt_file_url envC6X "https://host/path/main.m3u8".data
      = .error .indexError := by
  exact ⟨⟨[], by decide, by decide⟩, rfl⟩

/- ### Claim theorems: media-ID indirection (C3) and HTML fallback (C8) -/

/-- C3 as amended: a failed or non-ok lookup fetch and an absent
`activeMedia`/`psId` field yield `None`, but a fetched page with no script
element raises `AttributeError` (from `soup.script.get_text()`) instead of
yielding `None`. -/
theorem c3_media_id_amended (env : Env) (media_id : List Char) :
    (∀ m, env.rawFetch (MIMIR_BASE_URL media_id) none = .requestException m →
      get_program_id_from_media_id env media_id = .ok none)
    ∧ (∀ r, env.rawFetch (MIMIR_BASE_URL media_id) none = .ok r →
      r.okStatus = false → get_program_id_from_media_id env media_id = .ok none)
    ∧ (∀ r st fields, env.rawFetch (MIMIR_BASE_URL media_id) none = .ok r →
      r.okStatus = true → (env.parseHtml r.text).script = some st →
      env.jsonLoads st = .ok (.obj fields) →
      lookupKey fields "activeMedia".data = none →
      get_program_id_from_media_id env media_id = .ok none)
    ∧ (∀ r st fields g, env.rawFetch (MIMIR_BASE_URL media_id) none = .ok r →
      r.okStatus = true → (env.parseHtml r.text).script = some st →
      env.jsonLoads st = .ok (.obj fields) →
      lookupKey fields "activeMedia".data = some (.obj g) →
      lookupKey g "psId".data = none →
      get_program_id_from_media_id env media_id = .ok none)
    ∧ (∀ r, env.rawFetch (MIMIR_BASE_URL media_id) none = .ok r →
      r.okStatus = true → (env.parseHtml r.text).script = none →
      get_program_id_from_media_id env media_id
        = .error (.attributeError "get_text")) := by
  refine ⟨?_, ?_, ?_, ?_, ?_⟩
  · intro m hm
    simp [get_program_id_from_media_id, get_req, hm]
  · intro r hr hok
    simp [get_program_id_from_media_id, get_req, hr, hok]
  · intro r st fields hr hok hst hj hak
    simp [get_program_id_from_media_id, get_req, hr, hok, hst, hj, psIdOf, hak]
  · intro r st fields g hr hok hst hj hak hps
    simp [get_program_id_from_media_id, get_req, hr, hok, hst, hj, psIdOf, hak, hps]
  · intro r hr hok hst
    simp [get_program_id_from_media_id, get_req, hr, hok, hst]

/-- Witness for the amended C3: a failing lookup fetch yields `None`. -/
theorem c3_media_id_amended_witness :
    env0.rawFetch (MIMIR_BASE_URL "123".data) none
      = .requestException "connection error".data
    ∧ get_program_id_from_media_id env0 "123".data = .ok none :=
  ⟨rfl, (c3_media_id_amended env0 "123".data).1 "connection error".data rfl⟩

/-- C3 counterexample: a fetched page whose parse has no script element
makes the strategy raise `AttributeError`, not yield `None`. -/
theorem c3_counterexample :
    get_program_id_from_media_id envScriptless "123".data
      = .error (.attributeError "get_text")
    ∧ get_program_id_from_media_id envScriptless "123".data ≠ .ok none := by
  refine ⟨rfl, ?_⟩
  intro h
  have h2 : (Except.error (PyErr.attributeError "get_text")
      : Except PyErr (Option Json)) = .ok none := h
  exact Except.noConfusion h2

/-- C8 as amended: on a pattern-less reference, a transport error mapped to
a null response, a non-ok response, a page with neither the program-info
section nor a figure, and an element carrying neither data attribute all
make the resolver return `None` without raising. (A missing-scheme fetch
instead raises `NameError` through the broken retry; see the
counterexample.) -/
theorem c8_html_amended (env : Env) (url : List Char) (h : noPattern url = true) :
    (∀ m, env.rawFetch url none = .requestException m →
      get_program_id env url = .ok none)
    ∧ (∀ r, env.rawFetch url none = .ok r → r.okStatus = false →
      get_program_id env url = .ok none)
    ∧ (∀ r, env.rawFetch url none = .ok r → r.okStatus = true →
      soupIdElement (env.parseHtml r.text) = none →
      get_program_id env url = .ok none)
    ∧ (∀ r el, env.rawFetch url none = .ok r → r.okStatus = true →
      soupIdElement (env.parseHtml r.text) = some el → el.dataGaFromId = none →
      el.dataVideoId = none → get_program_id env url = .ok none) := by
  simp only [noPattern, Bool.and_eq_true, Option.isNone_iff_eq_none] at h
  obtain ⟨⟨hd, hst⟩, hmed⟩ := h
  refine ⟨?_, ?_, ?_, ?_⟩
  · intro m hm
    simp [get_program_id, hd, hst, hmed, get_program_id_from_html, get_req, hm]
  · intro r hr hok
    simp [get_program_id, hd, hst, hmed, get_program_id_from_html, get_req, hr, hok]
  · intro r hr hok hel
    simp [get_program_id, hd, hst, hmed, get_program_id_from_html, get_req, hr,
      hok, hel]
  · intro r el hr hok hel hga hvi
    simp [get_program_id, hd, hst, hmed, get_program_id_from_html, get_req, hr,
      hok, hel, attrOr, hga, hvi]

/-- The pattern-less reference used for C8. -/
def urlW8 : List Char := "tv.nrk.no/serie/broedrene-dal".data

/-- Witness for the amended C8: no pattern matches and the failed fetch
yields `None`. -/
theorem c8_html_amended_witness :
    noPattern urlW8 = true ∧ get_program_id env0 urlW8 = .ok none :=
  ⟨by decide, (c8_html_amended env0 urlW8 (by decide)).1 "connection error".data rfl⟩

/-- C8 counterexample: the same pattern-less reference, fetched without a
URL scheme, makes the resolver raise `NameError` through `get_req`'s broken
retry instead of returning `None`. -/
theorem c8_counterexample :
    noPattern urlW8 = true
    ∧ get_program_id envMissingSchema urlW8 = .error (.nameError "session") :=
  ⟨by decide, rfl⟩

/- ### Claim theorems: the batch loop (C7) -/

/-- Environment for C7: metadata for `DVFJ64001010` is an empty JSON
object; the media-ID lookup page parses to a document with no script. -/
def envC7 : Env where
  rawFetch := fun url _ =>
    if url = TVAPI_BASE_URL "DVFJ64001010".data then .ok ⟨"empty".data, true⟩
    else if url = MIMIR_BASE_URL "123".data then .ok ⟨"page".data, true⟩
    else .requestException "connection error".data
  parseHtml := fun _ => soupEmpty
  jsonLoads := fun s => if s = "empty".data then .ok (.obj []) else .error .jsonDecodeError
  urljoin := fun base rel => base ++ rel
  files := []
  hlsDump := fun _ _ => .ok ()

/-- The three references of the C7 counterexample: the second one raises
during resolution (media-ID page with no script element). -/
def progsC7 : List (List Char) :=
  ["DVFJ64001010".data, "mediaId=123".data, "EKUR12005213".data]

/-- C7 counterexample: of three references the first is attempted (empty
metadata reported, loop continues), the second raises `AttributeError`
during resolution, and the batch aborts so the third is never attempted. -/
theorem c7_counterexample :
    progsC7.length = 3
    ∧ mainRun envC7 progsC7
      = ([ItemResult.done DlOutcome.emptyResponse],
          some (PyErr.attributeError "get_text")) :=
  ⟨rfl, rfl⟩

/-- C7 as amended: as long as no iteration raises, the references are
processed strictly in input order, each item's reported result depends only
on its own reference, and handled failures (unparsable identifier, empty
or stream-less metadata) do not stop the loop. -/
theorem c7_batch_amended (env : Env) (programs : List (List Char))
    (h : ∀ p ∈ programs, (processItem env p).isOk = true) :
    mainRun env programs = (programs.map (itemResultOf env), none) := by
  induction programs with
  | nil => rfl
  | cons p rest ih =>
    have hp := h p (List.mem_cons_self p rest)
    cases hpi : processItem env p with
    | error e => rw [hpi] at hp; simp [Except.isOk, Except.toBool] at hp
    | ok r =>
      have hrest := ih fun q hq => h q (List.mem_cons_of_mem p hq)
      simp [mainRun, hpi, hrest, itemResultOf]

/-- The three references of the C7 witness: the middle one fails
resolution with a handled `None` (its fetch fails with a transport error).
-/
def progsW7 : List (List Char) :=
  ["DVFJ64001010".data, "tv.nrk.no/serie/broedrene-dal".data, "DVFJ64001010".data]

/-- Witness for the amended C7: the middle reference fails resolution, is
reported, and the first and third are still attempted with their own
outcomes. -/
theorem c7_batch_amended_witness :
    (∀ p ∈ progsW7, (processItem envC7 p).isOk = true)
    ∧ mainRun envC7 progsW7
      = ([ItemResult.done DlOutcome.emptyResponse, ItemResult.couldNotParse,
          ItemResult.done DlOutcome.emptyResponse], none) := by
  refine ⟨by decide, ?_⟩
  rw [c7_batch_amended envC7 progsW7 (by decide)]
  decide
